import Mathlib

/-!
Verification development for the hdf5 visualization script
(`examples/brushnet/scripts/hdf5extract.py`): key classification against
ordered lists of regular-expression patterns, the kind-dispatch renderer
`vis_data`, the stereo split in `vis_file`, the grid compositor
`create_image_grid`, and the sampling logic of `cli`.
-/

/-- Regular expressions, modelling the fragment of Python `re` used by the
script: literal characters, `.` (any character except newline),
concatenation, alternation and Kleene star. -/
inductive Regex where
  | emptyset
  | eps
  | chr (c : Char)
  | anychar
  | alt (r s : Regex)
  | concat (r s : Regex)
  | star (r : Regex)

/-- Whether a regex accepts the empty string. -/
def nullable : Regex → Bool
  | .emptyset => false
  | .eps => true
  | .chr _ => false
  | .anychar => false
  | .alt r s => nullable r || nullable s
  | .concat r s => nullable r && nullable s
  | .star _ => true

/-- Brzozowski derivative.  `.anychar` models Python `.`, which matches any
character except a newline. -/
def rderiv : Regex → Char → Regex
  | .emptyset, _ => .emptyset
  | .eps, _ => .emptyset
  | .chr c, a => if a = c then .eps else .emptyset
  | .anychar, a => if a = '\n' then .emptyset else .eps
  | .alt r s, a => .alt (rderiv r a) (rderiv s a)
  | .concat r s, a =>
    if nullable r then .alt (.concat (rderiv r a) s) (rderiv s a)
    else .concat (rderiv r a) s
  | .star r, a => .concat (rderiv r a) (.star r)

/-- Anchored (whole-string) matching by repeated derivatives; this embeds
Python `re.fullmatch(pattern, key)`, which must consume the entire key. -/
def rmatch : Regex → List Char → Bool
  | r, [] => nullable r
  | r, c :: cs => rmatch (rderiv r c) cs

/-- `re.fullmatch` on a Lean string. -/
def fullmatch (r : Regex) (s : String) : Bool :=
  rmatch r s.toList

/-- A pattern that is a plain string literal (no regex metacharacters). -/
def rlit (s : String) : Regex :=
  s.toList.foldr (fun c acc => .concat (.chr c) acc) .eps

/-- `default_rgb_keys = ["colors", "normals", "diffuse", "nocs"]`. -/
def default_rgb_patterns : List Regex :=
  [rlit "colors", rlit "normals", rlit "diffuse", rlit "nocs"]

/-- `default_flow_keys = ["forward_flow", "backward_flow"]`. -/
def default_flow_patterns : List Regex :=
  [rlit "forward_flow", rlit "backward_flow"]

/-- `default_segmap_keys = ["segmap", ".*_segmaps"]`; the second entry is the
regex `.*` followed by the literal `_segmaps`. -/
def default_segmap_patterns : List Regex :=
  [rlit "segmap", .concat (.star .anychar) (rlit "_segmaps")]

/-- `default_segcolormap_keys = ["segcolormap"]`; these entries are used as
plain container keys (indexed and looked up), never as regexes. -/
def default_segcolormap_keys : List String := ["segcolormap"]

/-- `default_depth_keys = ["distance", "depth", "stereo-depth"]`. -/
def default_depth_patterns : List Regex :=
  [rlit "distance", rlit "depth", rlit "stereo-depth"]

/-- `key_matches(key, patterns)` (with `return_index=False`): scan the
pattern list in order, returning whether some pattern fully matches. -/
def key_matches (key : String) : List Regex → Bool
  | [] => false
  | p :: ps => if fullmatch p key then true else key_matches key ps

/-- The loop of `key_matches(key, patterns, return_index=True)`, carrying the
running index `n` of the enumeration. -/
def key_matchesIdxAux (key : String) : List Regex → Nat → Bool × Option Nat
  | [], _ => (false, none)
  | p :: ps, n => if fullmatch p key then (true, some n) else key_matchesIdxAux key ps (n + 1)

/-- `key_matches(key, patterns, return_index=True)`: returns `(True, p)` for
the first matching pattern index `p`, else `(False, None)`. -/
def key_matchesIdx (key : String) (ps : List Regex) : Bool × Option Nat :=
  key_matchesIdxAux key ps 0

lemma keyIdxAux_true_iff (key : String) :
    ∀ (ps : List Regex) (n m : Nat),
      key_matchesIdxAux key ps n = (true, some m) ↔
        (n ≤ m ∧ m - n < ps.length ∧
          fullmatch (ps.getD (m - n) .emptyset) key = true ∧
          ∀ j, j < m - n → fullmatch (ps.getD j .emptyset) key = false) := by
  intro ps
  induction ps with
  | nil =>
    intro n m
    simp [key_matchesIdxAux]
  | cons p ps ih =>
    intro n m
    by_cases hp : fullmatch p key = true
    · simp only [key_matchesIdxAux, hp, if_true, Prod.mk.injEq, Option.some.injEq, true_and]
      constructor
      · rintro rfl
        refine ⟨Nat.le_refl _, by simp, by simpa using hp, by omega⟩
      · rintro ⟨h1, _h2, _h3, h4⟩
        by_contra hne
        have hd : 0 < m - n := by omega
        have := h4 0 hd
        simp only [List.getD_cons_zero] at this
        rw [hp] at this
        exact Bool.true_eq_false.mp this
    · have hp' : fullmatch p key = false := Bool.eq_false_iff.mpr hp
      simp only [key_matchesIdxAux, hp', Bool.false_eq_true, if_false]
      rw [ih (n + 1) m]
      constructor
      · rintro ⟨h1, h2, h3, h4⟩
        refine ⟨by omega, by simp; omega, ?_, ?_⟩
        · have he : m - n = (m - (n + 1)) + 1 := by omega
          rw [he, List.getD_cons_succ]
          exact h3
        · intro j hj
          match j with
          | 0 => simpa using hp'
          | j + 1 =>
            rw [List.getD_cons_succ]
            exact h4 j (by omega)
      · rintro ⟨h1, h2, h3, h4⟩
        have hmn : m ≠ n := by
          rintro rfl
          rw [Nat.sub_self, List.getD_cons_zero, hp'] at h3
          exact Bool.false_eq_true.mp h3
        refine ⟨by omega, by simp at h2; omega, ?_, ?_⟩
        · have he : m - n = (m - (n + 1)) + 1 := by omega
          rw [he, List.getD_cons_succ] at h3
          exact h3
        · intro j hj
          have := h4 (j + 1) (by omega)
          rw [List.getD_cons_succ] at this
          exact this

lemma keyIdxAux_false_iff (key : String) :
    ∀ (ps : List Regex) (n : Nat),
      key_matchesIdxAux key ps n = (false, none) ↔
        ∀ p ∈ ps, fullmatch p key = false := by
  intro ps
  induction ps with
  | nil =>
    intro n
    simp [key_matchesIdxAux]
  | cons p ps ih =>
    intro n
    by_cases hp : fullmatch p key = true
    · simp [key_matchesIdxAux, hp]
    · have hp' : fullmatch p key = false := Bool.eq_false_iff.mpr hp
      simp only [key_matchesIdxAux, hp', Bool.false_eq_true, if_false, List.mem_cons]
      rw [ih (n + 1)]
      constructor
      · rintro h q (rfl | hq)
        · exact hp'
        · exact h q hq
      · intro h q hq
        exact h q (Or.inr hq)

lemma keyIdxAux_shape (key : String) :
    ∀ (ps : List Regex) (n : Nat),
      (∃ m, key_matchesIdxAux key ps n = (true, some m)) ∨
        key_matchesIdxAux key ps n = (false, none) := by
  intro ps
  induction ps with
  | nil => intro n; exact Or.inr rfl
  | cons p ps ih =>
    intro n
    by_cases hp : fullmatch p key = true
    · exact Or.inl ⟨n, by simp [key_matchesIdxAux, hp]⟩
    · have hp' : fullmatch p key = false := Bool.eq_false_iff.mpr hp
      simpa [key_matchesIdxAux, hp'] using ih (n + 1)

lemma key_matches_eq_fst (key : String) :
    ∀ (ps : List Regex) (n : Nat),
      key_matches key ps = (key_matchesIdxAux key ps n).1 := by
  intro ps
  induction ps with
  | nil => intro n; rfl
  | cons p ps ih =>
    intro n
    by_cases hp : fullmatch p key = true
    · simp [key_matches, key_matchesIdxAux, hp]
    · have hp' : fullmatch p key = false := Bool.eq_false_iff.mpr hp
      simp only [key_matches, key_matchesIdxAux, hp', Bool.false_eq_true, if_false]
      exact ih (n + 1)

/-- If the boolean form reports a match, the indexed form reports the same
with an index that is in range for the pattern list. -/
lemma key_matches_true_idx (key : String) (ps : List Regex)
    (h : key_matches key ps = true) :
    ∃ i, key_matchesIdx key ps = (true, some i) ∧ i < ps.length := by
  rcases keyIdxAux_shape key ps 0 with ⟨m, hm⟩ | hn
  · refine ⟨m, hm, ?_⟩
    have := (keyIdxAux_true_iff key ps 0 m).mp hm
    omega
  · rw [key_matches_eq_fst key ps 0, hn] at h
    exact absurd h (by simp)

lemma key_matches_append (key : String) (xs ys : List Regex) :
    key_matches key (xs ++ ys) = (key_matches key xs || key_matches key ys) := by
  induction xs with
  | nil => simp [key_matches]
  | cons p xs ih =>
    by_cases hp : fullmatch p key = true
    · simp [key_matches, hp]
    · have hp' : fullmatch p key = false := Bool.eq_false_iff.mpr hp
      simp [key_matches, hp', ih]

/-- C1: `key_matches(k, ps, return_index=True)` returns `(True, i)` exactly
when `i` is the index of the first pattern in `ps` that `k` fully matches
(full-string semantics), and `(False, None)` exactly when no pattern fully
matches; in particular the key `"category_id_segmaps"` against the segmap
pattern list `["segmap", ".*_segmaps"]` yields match index 1, not 0. -/
theorem key_matches_return_index_correct (key : String) (ps : List Regex) :
    (∀ i : Nat, key_matchesIdx key ps = (true, some i) ↔
        (i < ps.length ∧ fullmatch (ps.getD i .emptyset) key = true ∧
          ∀ j, j < i → fullmatch (ps.getD j .emptyset) key = false))
    ∧ (key_matchesIdx key ps = (false, none) ↔ ∀ p ∈ ps, fullmatch p key = false)
    ∧ key_matchesIdx "category_id_segmaps" default_segmap_patterns = (true, some 1) := by
  refine ⟨fun i => ?_, ?_, by decide⟩
  · have h := keyIdxAux_true_iff key ps 0 i
    simpa [key_matchesIdx] using h
  · exact keyIdxAux_false_iff key ps 0

/-- Witness for C1: evaluated on the spec's concrete example, the key
`"category_id_segmaps"` fully matches pattern index 1 (`".*_segmaps"`) and
does not match pattern index 0 (`"segmap"`). -/
theorem key_matches_return_index_correct_witness :
    fullmatch (default_segmap_patterns.getD 1 .emptyset) "category_id_segmaps" = true ∧
    fullmatch (default_segmap_patterns.getD 0 .emptyset) "category_id_segmaps" = false := by
  have h := (key_matches_return_index_correct "category_id_segmaps" default_segmap_patterns).1 1
  have h2 := h.mp (by decide)
  exact ⟨h2.2.1, h2.2.2 0 (by decide)⟩

/-- A numpy-like N-dimensional array: a shape together with a total
value function on index lists.  Values are integers: every value-level
operation the claims exercise (moving, slicing, scaling by 255, casting to
a byte, comparing against thresholds) is exact integer arithmetic, and no
claim depends on floating-point rounding. -/
structure NDArr where
  shape : List Nat
  val : List Nat → Int

/-- `data[:, :, i]`: drop the channel axis, reading channel `i`. -/
def sliceCh (a : NDArr) (i : Nat) : NDArr :=
  { shape := a.shape.take 2, val := fun ix => a.val (ix ++ [i]) }

/-- `value[i]`: index the leading axis (one eye of a stereo pair). -/
def sliceRow (a : NDArr) (i : Nat) : NDArr :=
  { shape := a.shape.tail, val := fun ix => a.val (i :: ix) }

/-- `data[:, :, None]`: append a trailing channel axis of size 1. -/
def promote2 (a : NDArr) : NDArr :=
  { shape := a.shape ++ [1], val := fun ix => a.val (ix.take 2) }

/-- `hsv[..., ch] = f`: overwrite one channel of a 3-D array with values
drawn from a 2-D index function. -/
def setChVal (a : NDArr) (ch : Nat) (f : List Nat → Int) : NDArr :=
  { shape := a.shape,
    val := fun ix =>
      match ix with
      | [r, c, k] => if k = ch then f [r, c] else a.val ix
      | _ => a.val ix }

/-- The cv2 operations `flow_to_rgb` calls, as an abstract model: the
script imports them from opencv, so only their interface is known here.
`piV` stands for the constant `np.pi`. -/
structure Cv2Model where
  cartToPolar : NDArr → NDArr → NDArr × NDArr
  normalize : NDArr → NDArr
  cvtColor : NDArr → NDArr
  piV : Int

/-- `flow_to_rgb(flow)`: split the two flow channels, build an HSV image of
shape `(h, w, 3)` with saturation 1, hue from the flow angle and value from
the normalized magnitude, then convert HSV to RGB. -/
def flow_to_rgb (m : Cv2Model) (flow : NDArr) : NDArr :=
  let im1 := sliceCh flow 0
  let im2 := sliceCh flow 1
  let h := flow.shape.getD 0 0
  let w := flow.shape.getD 1 0
  let hsv0 : NDArr := { shape := [h, w, 3], val := fun _ => 0 }
  let hsv1 := setChVal hsv0 1 (fun _ => 1)
  let p := m.cartToPolar im1 im2
  let hsv2 := setChVal hsv1 0 (fun ix => p.2.val ix * 180 / m.piV)
  let hsv3 := setChVal hsv2 2 (fun ix => (m.normalize p.1).val ix)
  m.cvtColor hsv3

/-- A trivial concrete instantiation of the cv2 interface, used to evaluate
theorems with hypotheses at concrete inputs.  Its color conversion is the
identity, which preserves shapes just as `cv2.cvtColor` does. -/
def cv2Id : Cv2Model :=
  { cartToPolar := fun a b => (a, b)
    normalize := fun a => a
    cvtColor := fun a => a
    piV := 1 }

/-- C6: for every two-channel input array of shape `(H, W, 2)`,
`flow_to_rgb` returns a 3-channel image of shape `(H, W, 3)` (same height
and width as the input), given that the HSV-to-RGB color conversion
preserves array shapes, as `cv2.cvtColor` does. -/
theorem flow_to_rgb_shape (m : Cv2Model) (flow : NDArr) (H W : Nat)
    (hcvt : ∀ a : NDArr, (m.cvtColor a).shape = a.shape)
    (hshape : flow.shape = [H, W, 2]) :
    (flow_to_rgb m flow).shape = [H, W, 3] := by
  simp [flow_to_rgb, setChVal, hcvt, hshape]

/-- Witness for C6: a concrete `(2, 3, 2)` flow field renders to shape
`(2, 3, 3)` under the identity color conversion. -/
theorem flow_to_rgb_shape_witness :
    (flow_to_rgb cv2Id { shape := [2, 3, 2], val := fun _ => 0 }).shape = [2, 3, 3] :=
  flow_to_rgb_shape cv2Id { shape := [2, 3, 2], val := fun _ => 0 } 2 3
    (fun _ => rfl) rfl

/-- Boolean test that `pat` begins the list `s` (character comparison). -/
def isPre : List Char → List Char → Bool
  | [], _ => true
  | _ :: _, [] => false
  | a :: as, b :: bs => (a == b) && isPre as bs

/-- Boolean test that `pat` occurs as a contiguous substring of `s`. -/
def hasSub (pat : List Char) : List Char → Bool
  | [] => isPre pat []
  | c :: t => isPre pat (c :: t) || hasSub pat t

/-- Scanner for Python `str.replace`: walk the string left to right; on a
match emit the replacement and skip the matched characters (the skip count
is the `Nat` state); replacements are not rescanned.  Only called with a
nonempty pattern. -/
def replAux (pat rep : List Char) : List Char → Nat → List Char
  | [], _ => []
  | _ :: t, Nat.succ n => replAux pat rep t n
  | c :: t, 0 =>
    if isPre pat (c :: t) then rep ++ replAux pat rep t (pat.length - 1)
    else c :: replAux pat rep t 0

/-- All-occurrence, leftmost, non-overlapping replacement (Python
`s.replace(pat, rep)` for nonempty `pat`). -/
def replaceAll (pat rep s : List Char) : List Char :=
  replAux pat rep s 0

/-- Python `s.replace("", rep)` inserts `rep` before every character and at
the end. -/
def emptyPatRepl (rep : List Char) : List Char → List Char
  | [] => rep
  | c :: t => rep ++ c :: emptyPatRepl rep t

/-- Python `s.replace(pat, rep)` on Lean strings. -/
def pyReplace (s pat rep : String) : String :=
  if pat.toList = [] then String.mk (emptyPatRepl rep.toList s.toList)
  else String.mk (replaceAll pat.toList rep.toList s.toList)

/-- Python `str.isdigit` restricted to ASCII: nonempty and all digits. -/
def strIsDigit (s : String) : Bool :=
  !s.toList.isEmpty && s.toList.all (fun c => c.isDigit)

/-- Python `int(...)` on a decimal digit string. -/
def strToNat (s : String) : Nat :=
  s.toList.foldl (fun n c => n * 10 + (c.toNat - 48)) 0

/-- The final path component (characters after the last `/`). -/
def lastName (s : List Char) : List Char :=
  ((s.reverse).takeWhile (fun c => !(c == '/'))).reverse

/-- Everything up to and including the last `/`. -/
def dirPart (s : List Char) : List Char :=
  s.take (s.length - (lastName s).length)

/-- Index of the last `.` in a name, if any. -/
def rfindDot (name : List Char) : Option Nat :=
  (List.range name.length).foldl
    (fun acc i => if name.getD i ' ' == '.' then some i else acc) none

/-- `pathlib.PurePath.suffix` of a bare name: the part from the last dot,
unless that dot is leading or trailing. -/
def extOf (name : List Char) : List Char :=
  match rfindDot name with
  | some i => if 0 < i ∧ i + 1 < name.length then name.drop i else []
  | none => []

/-- `Path(s).suffix`. -/
def pySuffix (s : List Char) : List Char :=
  extOf (lastName s)

/-- `str(Path(s).with_suffix(""))`: the path with its suffix removed
(path normalization by `Path` is the identity on the already-normalized
paths the script builds). -/
def pyWithSuffixEmpty (s : List Char) : List Char :=
  dirPart s ++ (let n := lastName s; n.take (n.length - (extOf n).length))

/-- One step of the stereo-loop reassignment in `vis_file`:
`save_to_file = str(Path(save_to_file).with_suffix("")) +
("_left" if i == 0 else "_right") + Path(save_to_file).suffix`. -/
def path_with_lr (f : String) (i : Nat) : String :=
  String.mk (pyWithSuffixEmpty f.toList
    ++ (if i = 0 then "_left" else "_right").toList
    ++ pySuffix f.toList)

/-- The characters of the literal `".png"`. -/
def pngL : List Char := ['.', 'p', 'n', 'g']

lemma isPre_append_of_le (pat : List Char) :
    ∀ (l x : List Char), pat.length ≤ l.length → isPre pat (l ++ x) = isPre pat l := by
  induction pat with
  | nil => intro l x _; rfl
  | cons a as ih =>
    intro l x hl
    cases l with
    | nil => simp at hl
    | cons b bs =>
      simp only [List.cons_append, isPre, List.append_eq]
      rw [ih bs x (by simpa using hl)]

lemma isPre_png_extend (c : Char) (s : List Char)
    (h : isPre pngL (c :: s) = false) :
    isPre pngL (c :: (s ++ pngL)) = false := by
  match s with
  | [] =>
    have e : ('p' == '.') = false := by decide
    simp [pngL, isPre, e]
  | [a] =>
    have e : ('n' == '.') = false := by decide
    simp [pngL, isPre, e]
  | [a, b] =>
    have e : ('g' == '.') = false := by decide
    simp [pngL, isPre, e]
  | a :: b :: d :: rest =>
    have hl : pngL.length ≤ (c :: a :: b :: d :: rest).length := by
      simp [pngL]
    have := isPre_append_of_le pngL (c :: a :: b :: d :: rest) pngL hl
    simpa [this] using h

/-- If the stem contains no occurrence of `".png"`, replacing `".png"` in
`stem ++ ".png"` rewrites exactly the final extension. -/
lemma replaceAll_stem (rep stem : List Char) (h : hasSub pngL stem = false) :
    replaceAll pngL rep (stem ++ pngL) = stem ++ rep := by
  induction stem with
  | nil =>
    calc replaceAll pngL rep ([] ++ pngL) = rep ++ [] := rfl
      _ = rep := List.append_nil rep
      _ = [] ++ rep := (List.nil_append rep).symm
  | cons c s ih =>
    have h1 : isPre pngL (c :: s) = false := by
      have := h
      simp only [hasSub, Bool.or_eq_false_iff] at this
      exact this.1
    have h2 : hasSub pngL s = false := by
      have := h
      simp only [hasSub, Bool.or_eq_false_iff] at this
      exact this.2
    have hfalse := isPre_png_extend c s h1
    simp only [List.cons_append, List.append_eq, replaceAll, replAux, hfalse,
      Bool.false_eq_true, if_false]
    rw [show replAux pngL rep (s ++ pngL) 0 = replaceAll pngL rep (s ++ pngL) from rfl]
    rw [ih h2]

/-- The part of an open hdf5 container that `vis_data` reads through
`full_hdf5_data`: named entries whose decoded JSON payload is a list of
records, each record an ordered list of column-name/value pairs (the
segcolormap side table). -/
abbrev Hdf5Data := List (String × List (List (String × String)))

/-- Observable effects of one `vis_data` call, in program order: matplotlib
calls (`figure`, `title`, `imshow`, `imsave`, `close`, `colorbar`), the
multi-channel depth warning print, and the `TypeError` Python would raise
when comparing `None < len(...)`. -/
inductive VisEvent where
  | figure
  | title (s : String)
  | imshow (img : NDArr) (cmap : Option String) (vmax : Option Int)
  | imsave (file : String) (img : NDArr) (cmap : Option String) (vmax : Option Int)
  | close
  | colorbar
  | warn (msg : String)
  | typeError

/-- The warning printed for multi-channel depth data. -/
def depthWarnMsg (key : String) : String :=
  "Warning: The data with key \x27" ++ key ++
    "\x27 has more than one channel which would not allow using a jet color map. " ++
    "Therefore only the first channel is visualized."

/-- The `channel_*` scan over the first segcolormap record:
`channel_labels[int(value)] = column[len("channel_"):]` for each column
whose name starts with `channel_` and whose value is a digit string.
Insertion order is kept; a later binding for the same integer wins. -/
def segLabels (record : List (String × String)) : List (Nat × String) :=
  record.foldl
    (fun acc kv =>
      if kv.1.startsWith "channel_" && strIsDigit kv.2 then
        acc ++ [(strToNat kv.2, kv.1.drop ("channel_".length))]
      else acc)
    []

/-- Build `channel_labels` for a segmap key whose matched pattern index is
`key_index`: only when that index is in range of `segcolormap_keys`, the
file is open, and the legend key exists with a nonempty table. -/
def segcolormapLabels (key_index : Nat) (segcolormap_keys : List String)
    (full_hdf5_data : Option Hdf5Data) : List (Nat × String) :=
  if key_index < segcolormap_keys.length then
    match full_hdf5_data with
    | some fd =>
      match fd.lookup (segcolormap_keys.getD key_index "") with
      | some segcolormap =>
        if 0 < segcolormap.length then segLabels (segcolormap.headD []) else []
      | none => []
    | none => []
  else []

/-- `channel_labels.get(i, i)`, stringified as the f-strings do. -/
def labelGet (d : List (Nat × String)) (i : Nat) : String :=
  match (d.reverse).lookup i with
  | some s => s
  | none => toString i

/-- The segmap branch of `vis_data`.  `key_matches(key, segmap_keys,
return_index=True)` is re-run; a `None` index would make the following
`<` comparison raise a `TypeError`. -/
def segmapBranch (key : String) (data : NDArr) (full_hdf5_data : Option Hdf5Data)
    (file_label : String) (segmap_keys : List Regex) (segcolormap_keys : List String)
    (save_to_file : Option String) : List VisEvent :=
  match (key_matchesIdx key segmap_keys).2 with
  | none => [.typeError]
  | some key_index =>
    let channel_labels := segcolormapLabels key_index segcolormap_keys full_hdf5_data
    let d2 := if data.shape.length = 2 then promote2 data else data
    (List.range (d2.shape.getD 2 0)).flatMap (fun i =>
      let channel_label := labelGet channel_labels i
      match save_to_file with
      | none =>
        [.figure, .title (key ++ " / " ++ channel_label ++ " in " ++ file_label),
          .imshow (sliceCh d2 i) (some "jet") none]
      | some f =>
        let filename :=
          if 1 < d2.shape.getD 2 0 then pyReplace f ".png" ("_" ++ channel_label ++ ".png")
          else f
        [.imsave filename (sliceCh d2 i) (some "jet") none, .close])

/-- The depth branch of `vis_data`: if the data is 3-D, warn when it has
more than one channel and keep only channel 0; then render with the
`summer` colormap clamped at `depth_max`. -/
def depthBranch (key : String) (data : NDArr) (depth_max : Int)
    (save_to_file : Option String) : List VisEvent :=
  let wd :=
    if data.shape.length = 3 then
      ((if data.shape.getD 2 0 ≠ 1 then [VisEvent.warn (depthWarnMsg key)] else []),
        sliceCh data 0)
    else ([], data)
  wd.1 ++
    (match save_to_file with
     | none => [.imshow wd.2 (some "summer") (some depth_max), .colorbar]
     | some f => [.imsave f wd.2 (some "summer") (some depth_max), .close])

/-- `vis_data(key, data, full_hdf5_data, file_label, ...)`: the keyword
defaults (`rgb_keys=None` etc.) are resolved by the caller; the cv2 import
inside the flow branch is modelled as available through `m`. -/
def vis_data (m : Cv2Model) (key : String) (data : NDArr)
    (full_hdf5_data : Option Hdf5Data) (file_label : String)
    (rgb_keys flow_keys segmap_keys : List Regex) (segcolormap_keys : List String)
    (depth_keys : List Regex) (depth_max : Int)
    (save_to_file : Option String) : List VisEvent :=
  (if key_matches key (flow_keys ++ rgb_keys ++ depth_keys) then
      [VisEvent.figure, VisEvent.title (key ++ " in " ++ file_label)]
    else []) ++
  (if key_matches key flow_keys then
      match save_to_file with
      | none => [.imshow (flow_to_rgb m data) (some "jet") none]
      | some f => [.imsave f (flow_to_rgb m data) (some "jet") none, .close]
    else if key_matches key segmap_keys then
      segmapBranch key data full_hdf5_data file_label segmap_keys segcolormap_keys save_to_file
    else if key_matches key depth_keys then
      depthBranch key data depth_max save_to_file
    else if key_matches key rgb_keys then
      match save_to_file with
      | none => [.imshow data none none]
      | some f => [.imsave f data none none, .close]
    else
      match save_to_file with
      | none => [.imshow data none none]
      | some f => [.imsave f data none none, .close])

/-- Is this event the depth warning? -/
def isWarn : VisEvent → Bool
  | .warn _ => true
  | _ => false

/-- Is this event a rendering of an image (interactive or to file)? -/
def isRenderEvent : VisEvent → Bool
  | .imshow _ _ _ => true
  | .imsave _ _ _ _ => true
  | _ => false

/-- The filenames written by `imsave` events, in order. -/
def saveTargets (evs : List VisEvent) : List String :=
  evs.filterMap (fun e =>
    match e with
    | .imsave f _ _ _ => some f
    | _ => none)

/-- The shapes of rendered images, in order. -/
def renderShapes (evs : List VisEvent) : List (List Nat) :=
  evs.filterMap (fun e =>
    match e with
    | .imshow img _ _ => some img.shape
    | .imsave _ img _ _ => some img.shape
    | _ => none)

/-- The per-key body of `vis_file`'s visualization loop: when the array has
at least 3 dimensions and its leading dimension is 2, each eye is passed
through `vis_data` separately, with the *same* `save_to_file` variable
reassigned on every iteration (`if save_to_file:` is Python truthiness, so
`None` and the empty string skip the reassignment). -/
def vis_file_key (m : Cv2Model) (key : String) (value : NDArr)
    (full_hdf5_data : Option Hdf5Data) (path_basename : String)
    (rgb_keys flow_keys segmap_keys : List Regex) (segcolormap_keys : List String)
    (depth_keys : List Regex) (depth_max : Int)
    (save_to_file : Option String) : List VisEvent :=
  if 3 ≤ value.shape.length ∧ value.shape.getD 0 0 = 2 then
    ((List.range (value.shape.getD 0 0)).foldl
      (fun (acc : Option String × List VisEvent) i =>
        let f2 : Option String :=
          match acc.1 with
          | some f => if f = "" then some f else some (path_with_lr f i)
          | none => none
        (f2,
          acc.2 ++
            vis_data m key (sliceRow value i) full_hdf5_data
              (path_basename ++ (if i = 0 then " (left)" else " (right)"))
              rgb_keys flow_keys segmap_keys segcolormap_keys depth_keys depth_max f2))
      (save_to_file, ([] : List VisEvent))).2
  else
    vis_data m key value full_hdf5_data path_basename
      rgb_keys flow_keys segmap_keys segcolormap_keys depth_keys depth_max save_to_file

/-- `full_image[:, :, :3]` when the channel count is 4, else unchanged. -/
def stripAlpha (a : NDArr) : NDArr :=
  if a.shape.getD 2 0 = 4 then { shape := a.shape.take 2 ++ [3], val := a.val } else a

/-- `np.max` over all elements of a 3-D array. -/
def maxPixel (a : NDArr) : Int :=
  ((List.range (a.shape.getD 0 0)).flatMap (fun r =>
    (List.range (a.shape.getD 1 0)).flatMap (fun c =>
      (List.range (a.shape.getD 2 0)).map (fun k => a.val [r, c, k])))).foldl max 0

/-- `(img * 255).astype(np.uint8)` applied when `img.max() <= 1`: scale and
wrap into a byte (on integer-valued data the `astype` truncation is the
identity, leaving the mod-256 wrap). -/
def scaleIfLe1 (a : NDArr) : NDArr :=
  if maxPixel a ≤ 1 then
    { shape := a.shape, val := fun ix => (a.val ix * 255).emod 256 }
  else a

/-- `grid[r0 : r0 + src.h, c0 : c0 + src.w, : src.c] = src`: a rectangular
slice assignment on a 3-D array. -/
def setRegion (g src : NDArr) (r0 c0 : Nat) : NDArr :=
  { shape := g.shape,
    val := fun ix =>
      match ix with
      | [r, c, k] =>
        if r0 ≤ r ∧ r - r0 < src.shape.getD 0 0 ∧ c0 ≤ c ∧ c - c0 < src.shape.getD 1 0 ∧
            k < src.shape.getD 2 0 then
          src.val [r - r0, c - c0, k]
        else g.val ix
      | _ => g.val ix }

/-- `create_image_grid(images, cols=[1, 3], save_file)`: strip alpha and
rescale the first image, lay it on top of a white canvas of height
`h + h // 3`, then strip/rescale/resize each remaining image to
`(w // 3, h // 3)` and paste it at its third of the bottom band.  `resizeFn`
stands for `PIL.Image.resize`, which is library code: `resizeFn img W H`
models `np.array(Image.fromarray(img).resize((W, H)))`.  The produced grid
is what `plt.imsave(save_file, grid)` writes. -/
def create_image_grid (resizeFn : NDArr → Nat → Nat → NDArr)
    (images : List NDArr) : NDArr :=
  match images with
  | [] => { shape := [], val := fun _ => 0 }
  | img0 :: thumbs =>
    let full1 := stripAlpha img0
    let full2 := scaleIfLe1 full1
    let h := full2.shape.getD 0 0
    let w := full2.shape.getD 1 0
    let grid0 : NDArr := { shape := [h + h / 3, w, 3], val := fun _ => 255 }
    let grid1 := setRegion grid0 full2 0 0
    (thumbs.enum.foldl
      (fun g p =>
        let t1 := stripAlpha p.2
        let t2 := scaleIfLe1 t1
        let rz := resizeFn t2 (w / 3) (h / 3)
        setRegion g rz h (p.1 * (w / 3)))
      grid1)

/-- Outcome of the path-selection logic at the top of `cli()`: whether the
"not enough files" error was printed, whether `random.sample` ran, and the
final value of `args.hdf5_paths` that the processing loop then iterates
(`none` makes `for path in args.hdf5_paths` raise a `TypeError` before any
file is processed). -/
structure CliOutcome where
  errorReported : Bool
  sampled : Bool
  processed : Option (List String)

/-- The branch structure after argument parsing in `cli()`: `input_dir`
is compared against `None`; `found` is the recursive glob result and
`sampleFn` stands for `random.sample`. -/
def cli_select (input_dir : Option String) (hdf5_paths : Option (List String))
    (count : Nat) (found : List String)
    (sampleFn : List String → Nat → List String) : CliOutcome :=
  match input_dir with
  | some _ =>
    if found.length < count then
      { errorReported := true, sampled := false, processed := hdf5_paths }
    else
      { errorReported := false, sampled := true, processed := some (sampleFn found count) }
  | none =>
    { errorReported := false, sampled := false, processed := hdf5_paths }

lemma typeError_not_mem_segmapBranch (key : String) (data : NDArr)
    (full : Option Hdf5Data) (lbl : String) (seg : List Regex) (segc : List String)
    (sv : Option String) (h : key_matches key seg = true) :
    VisEvent.typeError ∉ segmapBranch key data full lbl seg segc sv := by
  obtain ⟨i, hi, _⟩ := key_matches_true_idx key seg h
  intro hmem
  unfold segmapBranch at hmem
  rw [hi] at hmem
  simp only [List.mem_flatMap] at hmem
  obtain ⟨j, _, hmem⟩ := hmem
  cases sv <;> simp at hmem

/-- C10: whenever the segmap branch of `vis_data` runs (its guard
`key_matches(key, segmap_keys)` returned true), the re-run
`key_matches(key, segmap_keys, return_index=True)` returns `(True, i)` with
`i < len(segmap_keys)`, so the subsequent `key_index < len(segcolormap_keys)`
comparison is never evaluated on `None` and no call of `vis_data` can raise
that `TypeError`. -/
theorem segmap_branch_index_safe (m : Cv2Model) (key : String) (data : NDArr)
    (full : Option Hdf5Data) (lbl : String)
    (rgb flow seg : List Regex) (segc : List String) (dep : List Regex)
    (dmax : Int) (sv : Option String) :
    VisEvent.typeError ∉ vis_data m key data full lbl rgb flow seg segc dep dmax sv
    ∧ (key_matches key seg = true →
        ∃ i, key_matchesIdx key seg = (true, some i) ∧ i < seg.length) := by
  constructor
  · intro hmem
    unfold vis_data at hmem
    rw [List.mem_append] at hmem
    rcases hmem with h | h
    · by_cases h1 : key_matches key (flow ++ rgb ++ dep) = true <;> simp [h1] at h
    · by_cases hf : key_matches key flow = true
      · simp only [if_pos hf] at h
        cases sv <;> simp at h
      · simp only [if_neg hf] at h
        by_cases hs : key_matches key seg = true
        · simp only [if_pos hs] at h
          exact typeError_not_mem_segmapBranch key data full lbl seg segc sv hs h
        · simp only [if_neg hs] at h
          by_cases hd : key_matches key dep = true
          · simp only [if_pos hd] at h
            unfold depthBranch at h
            by_cases h3 : data.shape.length = 3 <;>
              by_cases hc : data.shape.getD 2 0 ≠ 1 <;>
                cases sv <;> simp [h3, hc] at h
          · simp only [if_neg hd] at h
            by_cases hr : key_matches key rgb = true
            · simp only [if_pos hr] at h
              cases sv <;> simp at h
            · simp only [if_neg hr] at h
              cases sv <;> simp at h
  · exact key_matches_true_idx key seg

/-- Witness for C10: on a concrete segmap call no `TypeError` event occurs,
and for the key `"category_id_segmaps"` against the default segmap list the
indexed rematch yields index 1, in range of the two patterns. -/
theorem segmap_branch_index_safe_witness :
    VisEvent.typeError ∉
      vis_data cv2Id "category_id_segmaps" { shape := [2, 2], val := fun _ => 0 } none
        "f.hdf5" default_rgb_patterns default_flow_patterns default_segmap_patterns
        default_segcolormap_keys default_depth_patterns 5 none
    ∧ ∃ i, key_matchesIdx "category_id_segmaps" default_segmap_patterns = (true, some i)
        ∧ i < default_segmap_patterns.length :=
  ⟨(segmap_branch_index_safe cv2Id "category_id_segmaps"
      { shape := [2, 2], val := fun _ => 0 } none "f.hdf5" default_rgb_patterns
      default_flow_patterns default_segmap_patterns default_segcolormap_keys
      default_depth_patterns 5 none).1,
    (segmap_branch_index_safe cv2Id "category_id_segmaps"
      { shape := [2, 2], val := fun _ => 0 } none "f.hdf5" default_rgb_patterns
      default_flow_patterns default_segmap_patterns default_segcolormap_keys
      default_depth_patterns 5 none).2 (by decide)⟩

/-- A concrete multi-channel depth array of shape `(2, 2, 3)`. -/
def depthArr : NDArr := { shape := [2, 2, 3], val := fun _ => 0 }

/-- C4: for a key classified as depth whose array has shape `(H, W, C)` with
`C > 1`, `vis_data` renders exactly the data of channel 0, emits the
multi-channel warning exactly once, and rendering proceeds (an `imshow` or
`imsave` follows the warning). -/
theorem depth_multichannel_first_channel (m : Cv2Model) (key : String) (data : NDArr)
    (full : Option Hdf5Data) (lbl : String)
    (rgb flow seg : List Regex) (segc : List String) (dep : List Regex)
    (dmax : Int) (sv : Option String)
    (hflow : key_matches key flow = false) (hseg : key_matches key seg = false)
    (hdep : key_matches key dep = true)
    (hsh : data.shape.length = 3) (hc : 1 < data.shape.getD 2 0) :
    vis_data m key data full lbl rgb flow seg segc dep dmax sv =
      [VisEvent.figure, VisEvent.title (key ++ " in " ++ lbl),
        VisEvent.warn (depthWarnMsg key)] ++
      (match sv with
       | none => [VisEvent.imshow (sliceCh data 0) (some "summer") (some dmax),
           VisEvent.colorbar]
       | some f => [VisEvent.imsave f (sliceCh data 0) (some "summer") (some dmax),
           VisEvent.close])
    ∧ (vis_data m key data full lbl rgb flow seg segc dep dmax sv).countP isWarn = 1 := by
  have hpre : key_matches key (flow ++ rgb ++ dep) = true := by
    simp [key_matches_append, hdep]
  have hne : data.shape.getD 2 0 ≠ 1 := by omega
  have heq : vis_data m key data full lbl rgb flow seg segc dep dmax sv =
      [VisEvent.figure, VisEvent.title (key ++ " in " ++ lbl),
        VisEvent.warn (depthWarnMsg key)] ++
      (match sv with
       | none => [VisEvent.imshow (sliceCh data 0) (some "summer") (some dmax),
           VisEvent.colorbar]
       | some f => [VisEvent.imsave f (sliceCh data 0) (some "summer") (some dmax),
           VisEvent.close]) := by
    cases sv with
    | none =>
      simp only [vis_data, depthBranch, hpre, hflow, hseg, hdep, hsh, hne,
        eq_self_iff_true, if_true, Bool.false_eq_true, if_false, ne_eq,
        not_false_iff]
      rfl
    | some f =>
      simp only [vis_data, depthBranch, hpre, hflow, hseg, hdep, hsh, hne,
        eq_self_iff_true, if_true, Bool.false_eq_true, if_false, ne_eq,
        not_false_iff]
      rfl
  refine ⟨heq, ?_⟩
  rw [heq]
  cases sv <;> rfl

/-- Witness for C4: the key `"depth"` with a `(2, 2, 3)` array in
interactive mode yields figure, title, exactly one warning, and a channel-0
render with a colorbar. -/
theorem depth_multichannel_first_channel_witness :
    vis_data cv2Id "depth" depthArr none "f.hdf5" default_rgb_patterns
        default_flow_patterns default_segmap_patterns default_segcolormap_keys
        default_depth_patterns 5 none =
      [VisEvent.figure, VisEvent.title ("depth" ++ " in " ++ "f.hdf5"),
        VisEvent.warn (depthWarnMsg "depth")] ++
      [VisEvent.imshow (sliceCh depthArr 0) (some "summer") (some 5), VisEvent.colorbar]
    ∧ (vis_data cv2Id "depth" depthArr none "f.hdf5" default_rgb_patterns
        default_flow_patterns default_segmap_patterns default_segcolormap_keys
        default_depth_patterns 5 none).countP isWarn = 1 :=
  depth_multichannel_first_channel cv2Id "depth" depthArr none "f.hdf5"
    default_rgb_patterns default_flow_patterns default_segmap_patterns
    default_segcolormap_keys default_depth_patterns 5 none
    (by decide) (by decide) (by decide) (by decide) (by decide)

/-- A concrete 2-D segmentation array of shape `(2, 2)`. -/
def seg2Arr : NDArr := { shape := [2, 2], val := fun _ => 0 }

/-- C5: for a key classified as segmap whose array is 2-dimensional,
`vis_data` promotes the shape by appending a trailing dimension of size 1
and renders exactly one channel image (channel 0 of the promoted array). -/
theorem segmap_2d_single_channel (m : Cv2Model) (key : String) (data : NDArr)
    (full : Option Hdf5Data) (lbl : String)
    (rgb flow seg : List Regex) (segc : List String) (dep : List Regex)
    (dmax : Int) (sv : Option String)
    (hflow : key_matches key flow = false) (hseg : key_matches key seg = true)
    (h2 : data.shape.length = 2) :
    vis_data m key data full lbl rgb flow seg segc dep dmax sv =
      (if key_matches key (flow ++ rgb ++ dep) then
          [VisEvent.figure, VisEvent.title (key ++ " in " ++ lbl)]
        else []) ++
      (match sv with
       | none =>
         [VisEvent.figure,
           VisEvent.title (key ++ " / " ++
             labelGet (segcolormapLabels ((key_matchesIdx key seg).2.getD 0) segc full) 0 ++
             " in " ++ lbl),
           VisEvent.imshow (sliceCh (promote2 data) 0) (some "jet") none]
       | some f =>
         [VisEvent.imsave f (sliceCh (promote2 data) 0) (some "jet") none, VisEvent.close])
    ∧ (promote2 data).shape = data.shape ++ [1]
    ∧ (vis_data m key data full lbl rgb flow seg segc dep dmax sv).countP isRenderEvent = 1 := by
  obtain ⟨i, hi, hlt⟩ := key_matches_true_idx key seg hseg
  obtain ⟨a, b, hab⟩ := List.length_eq_two.mp h2
  have hget : (promote2 data).shape.getD 2 0 = 1 := by
    simp [promote2, hab]
  have heq : vis_data m key data full lbl rgb flow seg segc dep dmax sv =
      (if key_matches key (flow ++ rgb ++ dep) then
          [VisEvent.figure, VisEvent.title (key ++ " in " ++ lbl)]
        else []) ++
      (match sv with
       | none =>
         [VisEvent.figure,
           VisEvent.title (key ++ " / " ++
             labelGet (segcolormapLabels ((key_matchesIdx key seg).2.getD 0) segc full) 0 ++
             " in " ++ lbl),
           VisEvent.imshow (sliceCh (promote2 data) 0) (some "jet") none]
       | some f =>
         [VisEvent.imsave f (sliceCh (promote2 data) 0) (some "jet") none, VisEvent.close]) := by
    unfold vis_data segmapBranch
    rw [hi]
    simp only [hflow, Bool.false_eq_true, if_false, hseg, if_true, h2, eq_self_iff_true,
      ite_true, hget, Option.getD_some]
    cases sv with
    | none => rfl
    | some f => rfl
  refine ⟨heq, by simp [promote2], ?_⟩
  rw [heq]
  rw [List.countP_append]
  have hpre : (if key_matches key (flow ++ rgb ++ dep) then
      [VisEvent.figure, VisEvent.title (key ++ " in " ++ lbl)]
    else []).countP isRenderEvent = 0 := by
    by_cases hk : key_matches key (flow ++ rgb ++ dep) = true
    · rw [if_pos hk]; rfl
    · rw [if_neg hk]; rfl
  rw [hpre]
  cases sv <;> rfl

/-- Witness for C5: the 2-D array `seg2Arr` under the segmap key
`"category_id_segmaps"` saved to `"o.png"` renders exactly one channel. -/
theorem segmap_2d_single_channel_witness :
    vis_data cv2Id "category_id_segmaps" seg2Arr none "f.hdf5" default_rgb_patterns
        default_flow_patterns default_segmap_patterns default_segcolormap_keys
        default_depth_patterns 5 (some "o.png") =
      (if key_matches "category_id_segmaps"
          (default_flow_patterns ++ default_rgb_patterns ++ default_depth_patterns) then
          [VisEvent.figure, VisEvent.title ("category_id_segmaps" ++ " in " ++ "f.hdf5")]
        else []) ++
      [VisEvent.imsave "o.png" (sliceCh (promote2 seg2Arr) 0) (some "jet") none,
        VisEvent.close]
    ∧ (promote2 seg2Arr).shape = seg2Arr.shape ++ [1]
    ∧ (vis_data cv2Id "category_id_segmaps" seg2Arr none "f.hdf5" default_rgb_patterns
        default_flow_patterns default_segmap_patterns default_segcolormap_keys
        default_depth_patterns 5 (some "o.png")).countP isRenderEvent = 1 :=
  segmap_2d_single_channel cv2Id "category_id_segmaps" seg2Arr none "f.hdf5"
    default_rgb_patterns default_flow_patterns default_segmap_patterns
    default_segcolormap_keys default_depth_patterns 5 (some "o.png")
    (by decide) (by decide) (by decide)

lemma saveTargets_append (l1 l2 : List VisEvent) :
    saveTargets (l1 ++ l2) = saveTargets l1 ++ saveTargets l2 := by
  simp [saveTargets, List.filterMap_append]

lemma saveTargets_flatMap (l : List Nat) (f : Nat → List VisEvent) :
    saveTargets (l.flatMap f) = l.flatMap (fun i => saveTargets (f i)) := by
  induction l with
  | nil => rfl
  | cons x xs ih =>
    simp only [List.flatMap_cons, saveTargets, List.filterMap_append]
    simp only [saveTargets] at ih
    rw [ih]

lemma flatMap_single (l : List Nat) (g : Nat → String) :
    (l.flatMap fun i => [g i]) = l.map g := by
  induction l with
  | nil => rfl
  | cons x xs ih => simp only [List.flatMap_cons, List.map_cons, ih, List.singleton_append]

/-- A concrete 3-channel segmentation array of shape `(2, 2, 3)`. -/
def segArr3 : NDArr := { shape := [2, 2, 3], val := fun _ => 0 }

/-- C7 as stated fails: for a save path that does not end in `".png"` the
channel label is not appended at all — `save_to_file.replace(".png", ...)`
is a no-op on `"x.jpg"`, so all three channels of a `(2, 2, 3)` segmap are
saved to the same file `"x.jpg"` instead of `"x_0.jpg"`, `"x_1.jpg"`,
`"x_2.jpg"`. -/
theorem segmap_filename_counterexample :
    saveTargets (vis_data cv2Id "category_id_segmaps" segArr3 none "f"
        default_rgb_patterns default_flow_patterns default_segmap_patterns
        default_segcolormap_keys default_depth_patterns 5 (some "x.jpg")) =
      ["x.jpg", "x.jpg", "x.jpg"]
    ∧ ¬ (saveTargets (vis_data cv2Id "category_id_segmaps" segArr3 none "f"
        default_rgb_patterns default_flow_patterns default_segmap_patterns
        default_segcolormap_keys default_depth_patterns 5 (some "x.jpg")) =
      ["x_0.jpg", "x_1.jpg", "x_2.jpg"]) := by
  constructor
  · rfl
  · decide

/-- C7 (amended): for a segmap key with more than one channel saved to a
file, each channel triggers exactly one save whose target is the requested
path with every occurrence of `".png"` replaced by `"_<label>.png"`; when
the requested path is `stem ++ ".png"` with no `".png"` inside the stem,
this is exactly the channel label appended immediately before the
extension, one file per channel. -/
theorem segmap_multichannel_filenames (m : Cv2Model) (key : String) (data : NDArr)
    (full : Option Hdf5Data) (lbl : String)
    (rgb flow seg : List Regex) (segc : List String) (dep : List Regex)
    (dmax : Int) (stem : List Char)
    (hflow : key_matches key flow = false) (hseg : key_matches key seg = true)
    (hsh : data.shape.length = 3) (hc : 1 < data.shape.getD 2 0)
    (hstem : hasSub pngL stem = false) :
    saveTargets (vis_data m key data full lbl rgb flow seg segc dep dmax
        (some (String.mk (stem ++ pngL)))) =
      (List.range (data.shape.getD 2 0)).map (fun i =>
        String.mk (stem ++
          ('_' :: (labelGet
            (segcolormapLabels ((key_matchesIdx key seg).2.getD 0) segc full) i).toList)
          ++ pngL)) := by
  obtain ⟨i0, hi, _⟩ := key_matches_true_idx key seg hseg
  have hne2 : ¬ (data.shape.length = 2) := by omega
  have heq : vis_data m key data full lbl rgb flow seg segc dep dmax
      (some (String.mk (stem ++ pngL))) =
      (if key_matches key (flow ++ rgb ++ dep) then
          [VisEvent.figure, VisEvent.title (key ++ " in " ++ lbl)]
        else []) ++
      (List.range (data.shape.getD 2 0)).flatMap (fun i =>
        [VisEvent.imsave
          (if 1 < data.shape.getD 2 0 then
            pyReplace (String.mk (stem ++ pngL)) ".png"
              ("_" ++ labelGet (segcolormapLabels i0 segc full) i ++ ".png")
          else String.mk (stem ++ pngL))
          (sliceCh data i) (some "jet") none, VisEvent.close]) := by
    unfold vis_data segmapBranch
    rw [hi]
    simp only [hflow, Bool.false_eq_true, if_false, hseg, if_true, hne2, ite_false]
  rw [heq, saveTargets_append, saveTargets_flatMap]
  have hpre : saveTargets (if key_matches key (flow ++ rgb ++ dep) then
      [VisEvent.figure, VisEvent.title (key ++ " in " ++ lbl)]
    else []) = [] := by
    by_cases hk : key_matches key (flow ++ rgb ++ dep) = true
    · rw [if_pos hk]; rfl
    · rw [if_neg hk]; rfl
  rw [hpre, List.nil_append]
  have hstep : (List.range (data.shape.getD 2 0)).flatMap (fun i =>
      saveTargets [VisEvent.imsave
        (if 1 < data.shape.getD 2 0 then
          pyReplace (String.mk (stem ++ pngL)) ".png"
            ("_" ++ labelGet (segcolormapLabels i0 segc full) i ++ ".png")
        else String.mk (stem ++ pngL))
        (sliceCh data i) (some "jet") none, VisEvent.close]) =
      (List.range (data.shape.getD 2 0)).map (fun i =>
        if 1 < data.shape.getD 2 0 then
          pyReplace (String.mk (stem ++ pngL)) ".png"
            ("_" ++ labelGet (segcolormapLabels i0 segc full) i ++ ".png")
        else String.mk (stem ++ pngL)) := by
    exact flatMap_single _ _
  rw [hstep]
  rw [hi]
  refine List.map_congr_left (fun i _ => ?_)
  rw [if_pos hc]
  unfold pyReplace
  rw [if_neg (by decide : ¬ (".png".toList = []))]
  show String.mk (replaceAll pngL
      (('_' :: (labelGet (segcolormapLabels i0 segc full) i).toList) ++ pngL)
      (stem ++ pngL)) = _
  rw [replaceAll_stem (('_' :: (labelGet (segcolormapLabels i0 segc full) i).toList) ++ pngL)
    stem hstem]
  simp [List.append_assoc]

/-- Witness for C7 (amended): three channels of a `(2, 2, 3)` segmap saved
under `"out/s.png"` get the labels `0`, `1`, `2` appended before the
extension. -/
theorem segmap_multichannel_filenames_witness :
    saveTargets (vis_data cv2Id "category_id_segmaps" segArr3 none "f"
        default_rgb_patterns default_flow_patterns default_segmap_patterns
        default_segcolormap_keys default_depth_patterns 5
        (some (String.mk ("out/s".toList ++ pngL)))) =
      (List.range (segArr3.shape.getD 2 0)).map (fun i =>
        String.mk ("out/s".toList ++
          ('_' :: (labelGet
            (segcolormapLabels
              ((key_matchesIdx "category_id_segmaps" default_segmap_patterns).2.getD 0)
              default_segcolormap_keys none) i).toList)
          ++ pngL)) :=
  segmap_multichannel_filenames cv2Id "category_id_segmaps" segArr3 none "f"
    default_rgb_patterns default_flow_patterns default_segmap_patterns
    default_segcolormap_keys default_depth_patterns 5 "out/s".toList
    (by decide) (by decide) (by decide) (by decide) (by decide)

/-- C9 as stated fails: for the key `"mystery"`, which matches none of the
default pattern lists, the fallback call emits one event (`imshow`), while
the same call with `"mystery"` added to the rgb patterns emits three
(`figure`, `title`, `imshow`): the unknown-role call is not identical to
the rgb-classified call, because only the latter passes the
figure-and-title guard `key_matches(key, flow_keys + rgb_keys + depth_keys)`. -/
theorem unknown_vs_rgb_counterexample :
    (vis_data cv2Id "mystery" seg2Arr none "f" default_rgb_patterns
        default_flow_patterns default_segmap_patterns default_segcolormap_keys
        default_depth_patterns 5 none).length = 1
    ∧ (vis_data cv2Id "mystery" seg2Arr none "f"
        (default_rgb_patterns ++ [rlit "mystery"]) default_flow_patterns
        default_segmap_patterns default_segcolormap_keys
        default_depth_patterns 5 none).length = 3
    ∧ ¬ (vis_data cv2Id "mystery" seg2Arr none "f" default_rgb_patterns
          default_flow_patterns default_segmap_patterns default_segcolormap_keys
          default_depth_patterns 5 none =
        vis_data cv2Id "mystery" seg2Arr none "f"
          (default_rgb_patterns ++ [rlit "mystery"]) default_flow_patterns
          default_segmap_patterns default_segcolormap_keys
          default_depth_patterns 5 none) := by
  refine ⟨rfl, rfl, fun h => ?_⟩
  exact absurd (congrArg List.length h) (by decide)

/-- C9 (amended): for a key matching none of the flow, segmap, depth, or
rgb lists, `vis_data` behaves exactly as it would were the key classified
as rgb, except that the rgb-classified call first creates a titled figure;
in particular the rendered or saved artifact is identical. -/
theorem unknown_key_rgb_equivalence (m : Cv2Model) (key : String) (data : NDArr)
    (full : Option Hdf5Data) (lbl : String)
    (rgb rgb2 flow seg : List Regex) (segc : List String) (dep : List Regex)
    (dmax : Int) (sv : Option String)
    (hflow : key_matches key flow = false) (hseg : key_matches key seg = false)
    (hdep : key_matches key dep = false) (hrgb : key_matches key rgb = false)
    (hrgb2 : key_matches key rgb2 = true) :
    vis_data m key data full lbl rgb2 flow seg segc dep dmax sv =
      VisEvent.figure :: VisEvent.title (key ++ " in " ++ lbl) ::
        vis_data m key data full lbl rgb flow seg segc dep dmax sv := by
  have hpre2 : key_matches key (flow ++ rgb2 ++ dep) = true := by
    simp [key_matches_append, hrgb2]
  have hpre1 : key_matches key (flow ++ rgb ++ dep) = false := by
    simp [key_matches_append, hrgb, hflow, hdep]
  unfold vis_data
  simp only [hpre2, hpre1, eq_self_iff_true, if_true, Bool.false_eq_true, if_false,
    hflow, hseg, hdep, hrgb, hrgb2, List.nil_append]
  cases sv <;> rfl

/-- Witness for C9 (amended): concrete `"mystery"` call compared with the
same call where `"mystery"` is appended to the rgb pattern list. -/
theorem unknown_key_rgb_equivalence_witness :
    vis_data cv2Id "mystery" seg2Arr none "f"
        (default_rgb_patterns ++ [rlit "mystery"]) default_flow_patterns
        default_segmap_patterns default_segcolormap_keys
        default_depth_patterns 5 none =
      VisEvent.figure :: VisEvent.title ("mystery" ++ " in " ++ "f") ::
        vis_data cv2Id "mystery" seg2Arr none "f" default_rgb_patterns
          default_flow_patterns default_segmap_patterns default_segcolormap_keys
          default_depth_patterns 5 none :=
  unknown_key_rgb_equivalence cv2Id "mystery" seg2Arr none "f"
    default_rgb_patterns (default_rgb_patterns ++ [rlit "mystery"])
    default_flow_patterns default_segmap_patterns default_segcolormap_keys
    default_depth_patterns 5 none
    (by decide) (by decide) (by decide) (by decide) (by decide)

/-- A concrete stereo rgb array of shape `(2, 4, 5, 3)`. -/
def stereoColors : NDArr := { shape := [2, 4, 5, 3], val := fun _ => 0 }

/-- C2: evaluating the stereo branch of `vis_file` on a `(2, 4, 5, 3)` rgb
array saved under `"out/room_scene_1_colors.png"`.  Exactly two outputs are
rendered, each of shape `(4, 5, 3)`, but because the loop reassigns
`save_to_file` and `Path.with_suffix("")` strips only the extension, the
second file is named `..._left_right.png` instead of `..._right.png`. -/
theorem stereo_save_suffix_accumulates :
    saveTargets (vis_file_key cv2Id "colors" stereoColors none "scene_1.hdf5"
        default_rgb_patterns default_flow_patterns default_segmap_patterns
        default_segcolormap_keys default_depth_patterns 5
        (some "out/room_scene_1_colors.png")) =
      ["out/room_scene_1_colors_left.png", "out/room_scene_1_colors_left_right.png"]
    ∧ (vis_file_key cv2Id "colors" stereoColors none "scene_1.hdf5"
        default_rgb_patterns default_flow_patterns default_segmap_patterns
        default_segcolormap_keys default_depth_patterns 5
        (some "out/room_scene_1_colors.png")).countP isRenderEvent = 2
    ∧ renderShapes (vis_file_key cv2Id "colors" stereoColors none "scene_1.hdf5"
        default_rgb_patterns default_flow_patterns default_segmap_patterns
        default_segcolormap_keys default_depth_patterns 5
        (some "out/room_scene_1_colors.png")) = [[4, 5, 3], [4, 5, 3]] :=
  ⟨rfl, rfl, rfl⟩

/-- C8 as stated fails: with an input directory configured, fewer found
files than requested, and explicit `--hdf5_paths`, the error is reported
and no sampling happens, but the explicitly given paths are still iterated
by the processing loop. -/
theorem cli_insufficient_counterexample :
    cli_select (some "data/dir") (some ["x.hdf5"]) 25 ["a.hdf5"] (fun l _ => l) =
      { errorReported := true, sampled := false, processed := some ["x.hdf5"] }
    ∧ (cli_select (some "data/dir") (some ["x.hdf5"]) 25 ["a.hdf5"]
        (fun l _ => l)).processed ≠ none
    ∧ (cli_select (some "data/dir") (some ["x.hdf5"]) 25 ["a.hdf5"]
        (fun l _ => l)).processed ≠ some [] := by
  refine ⟨rfl, by decide, by decide⟩

/-- C8 (amended): when an input directory is given and fewer files are
found than the requested sample count, the condition is reported and no
random sampling is performed; the processing loop then iterates
`args.hdf5_paths` unchanged — so when no explicit paths were supplied the
run raises a `TypeError` before processing any file, and when explicit
paths were supplied those (and only those) are processed. -/
theorem cli_insufficient_no_sampling (dir : String) (paths : Option (List String))
    (count : Nat) (found : List String) (sampleFn : List String → Nat → List String)
    (h : found.length < count) :
    cli_select (some dir) paths count found sampleFn =
      { errorReported := true, sampled := false, processed := paths } := by
  unfold cli_select
  rw [if_pos h]

/-- Witness for C8 (amended): one found file against a request for 25, with
no explicit paths: the error is reported, sampling is skipped, and the loop
target stays `None`. -/
theorem cli_insufficient_no_sampling_witness :
    cli_select (some "data/dir") none 25 ["a.hdf5"] (fun l _ => l) =
      { errorReported := true, sampled := false, processed := none } :=
  cli_insufficient_no_sampling "data/dir" none 25 ["a.hdf5"] (fun l _ => l) (by decide)

lemma setRegion_val (g src : NDArr) (r0 c0 r c k : Nat) :
    (setRegion g src r0 c0).val [r, c, k] =
      if r0 ≤ r ∧ r - r0 < src.shape.getD 0 0 ∧ c0 ≤ c ∧ c - c0 < src.shape.getD 1 0 ∧
          k < src.shape.getD 2 0 then
        src.val [r - r0, c - c0, k]
      else g.val [r, c, k] := rfl

lemma scaleIfLe1_shape (a : NDArr) : (scaleIfLe1 a).shape = a.shape := by
  unfold scaleIfLe1
  split <;> rfl

lemma stripAlpha_of_three (a : NDArr) (H W : Nat) (h : a.shape = [H, W, 3]) :
    stripAlpha a = a := by
  unfold stripAlpha
  rw [h]
  rfl

/-- C3 (amended): for one main image of shape `H×W×4` whose maximum pixel
value after alpha-stripping exceeds 1, and three `H×W×3` thumbnails,
`create_image_grid` produces a `(H + H//3, W, 3)` array whose rows `[0,H)`
hold the main image unmodified except for the stripped alpha channel,
whose bottom band holds thumbnail `i` (processed and resized to
`(H//3, W//3)`) at columns `[i*(W//3), (i+1)*(W//3))`, and whose remaining
bottom-band columns keep the white background; a main image whose maximum
pixel value is at most 1 is instead rescaled by 255 first. -/
theorem create_image_grid_layout (resizeFn : NDArr → Nat → Nat → NDArr)
    (main t0 t1 t2 : NDArr) (H W : Nat)
    (hres : ∀ (a : NDArr) (w2 h2 : Nat),
      (resizeFn a w2 h2).shape = [h2, w2, a.shape.getD 2 0])
    (hm : main.shape = [H, W, 4])
    (hmax : ¬ (maxPixel (stripAlpha main) ≤ 1))
    (ht0 : t0.shape = [H, W, 3]) (ht1 : t1.shape = [H, W, 3])
    (ht2 : t2.shape = [H, W, 3]) :
    (create_image_grid resizeFn [main, t0, t1, t2]).shape = [H + H / 3, W, 3]
    ∧ (∀ r c k, r < H → c < W → k < 3 →
        (create_image_grid resizeFn [main, t0, t1, t2]).val [r, c, k] =
          main.val [r, c, k])
    ∧ (∀ i, i < 3 → ∀ r c k, r < H / 3 → c < W / 3 → k < 3 →
        (create_image_grid resizeFn [main, t0, t1, t2]).val
            [H + r, i * (W / 3) + c, k] =
          (resizeFn (scaleIfLe1 (stripAlpha ([t0, t1, t2].getD i t0))) (W / 3) (H / 3)).val
            [r, c, k])
    ∧ (∀ r c k, r < H / 3 → 3 * (W / 3) ≤ c → c < W → k < 3 →
        (create_image_grid resizeFn [main, t0, t1, t2]).val [H + r, c, k] = 255) := by
  have hsa : stripAlpha main = { shape := [H, W, 3], val := main.val } := by
    unfold stripAlpha
    rw [hm]
    rfl
  have hF2 : scaleIfLe1 (stripAlpha main) = { shape := [H, W, 3], val := main.val } := by
    rw [hsa] at hmax ⊢
    unfold scaleIfLe1
    rw [if_neg hmax]
  have hs0 : (scaleIfLe1 (stripAlpha t0)).shape = [H, W, 3] := by
    rw [scaleIfLe1_shape, stripAlpha_of_three t0 H W ht0, ht0]
  have hs1 : (scaleIfLe1 (stripAlpha t1)).shape = [H, W, 3] := by
    rw [scaleIfLe1_shape, stripAlpha_of_three t1 H W ht1, ht1]
  have hs2 : (scaleIfLe1 (stripAlpha t2)).shape = [H, W, 3] := by
    rw [scaleIfLe1_shape, stripAlpha_of_three t2 H W ht2, ht2]
  have hz0 : (resizeFn (scaleIfLe1 (stripAlpha t0)) (W / 3) (H / 3)).shape =
      [H / 3, W / 3, 3] := by rw [hres, hs0]; rfl
  have hz1 : (resizeFn (scaleIfLe1 (stripAlpha t1)) (W / 3) (H / 3)).shape =
      [H / 3, W / 3, 3] := by rw [hres, hs1]; rfl
  have hz2 : (resizeFn (scaleIfLe1 (stripAlpha t2)) (W / 3) (H / 3)).shape =
      [H / 3, W / 3, 3] := by rw [hres, hs2]; rfl
  have hunfold : create_image_grid resizeFn [main, t0, t1, t2] =
      setRegion (setRegion (setRegion
        (setRegion { shape := [H + H / 3, W, 3], val := fun _ => 255 }
          { shape := [H, W, 3], val := main.val } 0 0)
        (resizeFn (scaleIfLe1 (stripAlpha t0)) (W / 3) (H / 3)) H (0 * (W / 3)))
        (resizeFn (scaleIfLe1 (stripAlpha t1)) (W / 3) (H / 3)) H (1 * (W / 3)))
        (resizeFn (scaleIfLe1 (stripAlpha t2)) (W / 3) (H / 3)) H (2 * (W / 3)) := by
    simp only [create_image_grid]
    rw [hF2]
    rfl
  refine ⟨?_, ?_, ?_, ?_⟩
  · rw [hunfold]
    rfl
  · intro r c k hr hc hk
    rw [hunfold, setRegion_val, if_neg (fun h => absurd h.1 (by omega : ¬ H ≤ r)),
      setRegion_val, if_neg (fun h => absurd h.1 (by omega : ¬ H ≤ r)),
      setRegion_val, if_neg (fun h => absurd h.1 (by omega : ¬ H ≤ r)),
      setRegion_val]
    rw [if_pos ⟨Nat.zero_le r, by simpa using hr, Nat.zero_le c, by simpa using hc,
      by simpa using hk⟩]
    simp
  · intro i hi r c k hr hc hk
    rw [hunfold, setRegion_val, setRegion_val, setRegion_val, setRegion_val, hz0, hz1, hz2]
    simp only [List.getD_cons_zero, List.getD_cons_succ]
    interval_cases i
    · rw [if_neg (by omega), if_neg (by omega), if_pos (by omega)]
      have e1 : H + r - H = r := by omega
      have e2 : 0 * (W / 3) + c - 0 * (W / 3) = c := by omega
      rw [e1, e2]
      rfl
    · rw [if_neg (by omega), if_pos (by omega)]
      have e1 : H + r - H = r := by omega
      have e2 : 1 * (W / 3) + c - 1 * (W / 3) = c := by omega
      rw [e1, e2]
      rfl
    · rw [if_pos (by omega)]
      have e1 : H + r - H = r := by omega
      have e2 : 2 * (W / 3) + c - 2 * (W / 3) = c := by omega
      rw [e1, e2]
      rfl
  · intro r c k hr hc hcw hk
    rw [hunfold, setRegion_val, setRegion_val, setRegion_val, setRegion_val, hz0, hz1, hz2]
    simp only [List.getD_cons_zero, List.getD_cons_succ]
    rw [if_neg (by omega), if_neg (by omega), if_neg (by omega), if_neg (by omega)]

/-- A binary main image: `3×3×4`, every pixel 1 (values within `[0, 255]`). -/
def mainOnes : NDArr := { shape := [3, 3, 4], val := fun _ => 1 }

/-- A black `3×3×3` thumbnail. -/
def thumbZero : NDArr := { shape := [3, 3, 3], val := fun _ => 0 }

/-- A concrete stand-in for `PIL.Image.resize`: returns the requested
`(height, width)` with the input's channel count, constant pixel 7. -/
def rzStub : NDArr → Nat → Nat → NDArr :=
  fun a w2 h2 => { shape := [h2, w2, a.shape.getD 2 0], val := fun _ => 7 }

set_option maxRecDepth 10000 in
/-- C3 as stated fails: a main image with pixel values in `[0, 255]` but
maximum 1 (a binary mask) is *not* copied unmodified into the top rows —
`full_image.max() <= 1` triggers the rescale, so pixel `(0,0,0)` of the
grid is 255 while the main image holds 1 there. -/
theorem grid_binary_main_rescaled_counterexample :
    (create_image_grid rzStub [mainOnes, thumbZero, thumbZero, thumbZero]).val [0, 0, 0] = 255
    ∧ mainOnes.val [0, 0, 0] = 1
    ∧ ¬ ((create_image_grid rzStub [mainOnes, thumbZero, thumbZero, thumbZero]).val [0, 0, 0]
        = mainOnes.val [0, 0, 0]) := by
  refine ⟨by decide, rfl, by decide⟩

/-- A main image of maximum pixel value 2: `3×4×4`. -/
def mainTwo : NDArr := { shape := [3, 4, 4], val := fun _ => 2 }

/-- A black `3×4×3` thumbnail. -/
def thumbW : NDArr := { shape := [3, 4, 3], val := fun _ => 0 }

set_option maxRecDepth 10000 in
/-- Witness for C3 (amended): a `3×4×4` main image of maximum 2 with three
`3×4×3` thumbnails: the grid has shape `(4, 4, 3)`, keeps the main pixel at
`(0,0,0)`, places thumbnail 1 at bottom-band column `1*(4//3)`, and keeps
the white background at bottom-band column 3. -/
theorem create_image_grid_layout_witness :
    (create_image_grid rzStub [mainTwo, thumbW, thumbW, thumbW]).shape = [3 + 3 / 3, 4, 3]
    ∧ (create_image_grid rzStub [mainTwo, thumbW, thumbW, thumbW]).val [0, 0, 0] =
        mainTwo.val [0, 0, 0]
    ∧ (create_image_grid rzStub [mainTwo, thumbW, thumbW, thumbW]).val
          [3 + 0, 1 * (4 / 3) + 0, 0] =
        (rzStub (scaleIfLe1 (stripAlpha ([thumbW, thumbW, thumbW].getD 1 thumbW)))
          (4 / 3) (3 / 3)).val [0, 0, 0]
    ∧ (create_image_grid rzStub [mainTwo, thumbW, thumbW, thumbW]).val [3 + 0, 3, 0] = 255 := by
  have h := create_image_grid_layout rzStub mainTwo thumbW thumbW thumbW 3 4
    (fun _ _ _ => rfl) rfl (by decide) rfl rfl rfl
  exact ⟨h.1, h.2.1 0 0 0 (by omega) (by omega) (by omega),
    h.2.2.1 1 (by omega) 0 0 0 (by omega) (by omega) (by omega),
    h.2.2.2 0 3 0 (by omega) (by omega) (by omega) (by omega)⟩
